import Mathlib

/-!
Shallow embedding of the aws-lambda-rest-iam-api request handlers.

The repository holds two variants of the service:
* a Lambda proxy handler (the gateway variant) with its own path/method switch,
  an OPTIONS short circuit and a 404 default branch;
* a net/http server (main.go) with a ServeMux over the patterns "/", "/health"
  and "/data" plus a caller-identity inference layer (extractCallerInfo and
  extractRoleInfo).

Go strings are modelled at the character level (a Go byte slice of an ASCII
string coincides with the character slice).  Go slice expressions, which can
panic when out of bounds, are modelled by Option-valued slicing so that
totality of the inference layer is a real theorem.  The json.Unmarshal step of
the POST /data route is external library code; it is modelled as an abstract
decoder parameter mapping a body to either a parse failure, a nil map (the
JSON literal null) or a concrete object.
-/

namespace Model

/-- JSON values, the image of the Go value space that the handlers build. -/
inductive Json where
  | null : Json
  | bool (b : Bool) : Json
  | num (n : Int) : Json
  | str (s : String) : Json
  | arr (elems : List Json) : Json
  | obj (fields : List (String × Json)) : Json

/-- Result of a successful json.Unmarshal into a Go map value:
none models the nil map (produced by the JSON literal null),
some m models a concrete object. -/
abbrev GoMap := Option (List (String × Json))

/-- Marshalling a Go map value: the nil map marshals to the JSON literal null. -/
def marshalGoMap : GoMap → Json
  | none => Json.null
  | some m => Json.obj m

/-- Abstract model of json.Unmarshal into a Go map: none is a parse error. -/
abbrev JsonDecoder := String → Option GoMap

/-- The min helper defined at the bottom of main.go. -/
def goMin (a b : Nat) : Nat := if a < b then a else b

/-- Go slice expression s[i:j]; none models the panic when out of bounds. -/
def goSlice (s : String) (i j : Nat) : Option String :=
  if i ≤ j ∧ j ≤ s.data.length then
    some (String.mk ((s.data.drop i).take (j - i)))
  else none

/-- Go slice expression s[i:]. -/
def goSliceFrom (s : String) (i : Nat) : Option String := goSlice s i s.data.length

/-- Go slice expression s[:j]. -/
def goSliceTo (s : String) (j : Nat) : Option String := goSlice s 0 j

/-- First index at which pat occurs as a sub-list, the core of strings.Index. -/
def subIndex (pat : List Char) : List Char → Option Nat
  | [] => if pat.isEmpty then some 0 else none
  | c :: rest =>
    if pat.isPrefixOf (c :: rest) then some 0
    else (subIndex pat rest).map (· + 1)

/-- strings.Index; none models the -1 result. -/
def goIndex (s pat : String) : Option Nat := subIndex pat.data s.data

/-- strings.Contains. -/
def goContains (s pat : String) : Bool := (goIndex s pat).isSome

/-- First index of a character drawn from chars, the core of strings.IndexAny. -/
def anyIndex (chars : List Char) : List Char → Option Nat
  | [] => none
  | c :: rest =>
    if chars.contains c then some 0
    else (anyIndex chars rest).map (· + 1)

/-- strings.IndexAny; none models the -1 result. -/
def goIndexAny (s chars : String) : Option Nat := anyIndex chars.data s.data

/-- Header collection; Get returns the empty string for a missing key,
matching http.Header.Get. -/
abbrev Headers := List (String × String)

/-- http.Header.Get: value of the first matching key, or the empty string. -/
def headerGet (h : Headers) (k : String) : String :=
  match h.find? (fun p => p.1 == k) with
  | some p => p.2
  | none => ""

end Model


namespace Server

open Model

/-- Caller descriptor built by extractCallerInfo (main.go lines 30-37).
All fields default to the Go zero value, the empty string. -/
structure CallerInfo where
  userARN : String := ""
  userID : String := ""
  accountID : String := ""
  principalID : String := ""
  roleName : String := ""
  sessionName : String := ""
deriving DecidableEq

/-- The fixed candidate header list scanned for role data (main.go lines 60-67). -/
def roleHeaders : List String :=
  ["Authorization", "X-Amz-User-Agent",
   "X-Amzn-RequestContext-Identity-Arn",
   "X-Amzn-RequestContext-Identity-UserArn",
   "X-Amzn-RequestContext-Identity-User",
   "X-Amzn-RequestContext-Identity-PrincipalId"]

/-- Inner loop of the assumed-role scan (main.go lines 76-85): first element
equal to "assumed-role" that still has a successor yields the next one or two
segments as role and session name. -/
def assumedRoleScan : List String → Option (String × String)
  | [] => none
  | p :: rest =>
    if p = "assumed-role" then
      match rest with
      | r :: s :: _ => some (r, s)
      | [r] => some (r, "")
      | [] => none
    else assumedRoleScan rest

/-- The role/ pattern check of one header value (main.go lines 88-99).
Outer none models a Go panic; some none means no match, continue the loop. -/
def roleSlashCheck (value : String) : Option (Option (String × String)) :=
  if goContains value "role/" then
    match goIndex value "role/" with
    | some idx =>
      match goSliceFrom value (idx + 5) with
      | none => none
      | some remaining =>
        match goIndexAny remaining "/,; " with
        | some endIdx =>
          match goSliceTo remaining endIdx with
          | none => none
          | some rn => some (some (rn, ""))
        | none => some (some (remaining, ""))
    | none => some none
  else some none

/-- One iteration of the header scan after the length guard
(main.go lines 72-99), including the logging slice of the value. -/
def roleValueCheck (value : String) : Option (Option (String × String)) :=
  match goSliceTo value (goMin value.length 100) with
  | none => none
  | some _ =>
    if goContains value "assumed-role" then
      match assumedRoleScan (value.splitOn "/") with
      | some rs => some (some rs)
      | none => roleSlashCheck value
    else roleSlashCheck value

/-- The header scan loop of extractRoleInfo (main.go lines 69-101). -/
def roleHeaderLoop (h : Headers) : List String → Option (Option (String × String))
  | [] => some none
  | name :: rest =>
    let value := headerGet h name
    if value ≠ "" ∧ value.length > 10 then
      match roleValueCheck value with
      | none => none
      | some (some rs) => some (some rs)
      | some none => roleHeaderLoop h rest
    else roleHeaderLoop h rest

/-- The STS temporary-credential check (main.go lines 103-117). -/
def stsTokenCheck (h : Headers) : Option (String × String) :=
  let securityToken := headerGet h "X-Amz-Security-Token"
  if securityToken ≠ "" ∧ "IQoJ".isPrefixOf securityToken then
    if securityToken.length > 100 then
      match goSlice securityToken 50 60 with
      | none => none
      | some piece => some ("STS-AssumedRole", "session-" ++ piece)
    else some ("STS-AssumedRole", "")
  else some ("", "")

/-- Header scan followed by the STS-token fallback (main.go lines 59-119). -/
def roleScanAndToken (h : Headers) : Option (String × String) :=
  match roleHeaderLoop h roleHeaders with
  | none => none
  | some (some rs) => some rs
  | some none => stsTokenCheck h

/-- extractRoleInfo (main.go lines 47-120); awsRoleArn is the value of the
AWS_EXECUTION_ROLE_ARN environment variable, the empty string when unset. -/
def extractRoleInfo (awsRoleArn : String) (h : Headers) : Option (String × String) :=
  if awsRoleArn ≠ "" ∧ goContains awsRoleArn "role/" then
    let parts := awsRoleArn.splitOn "/"
    if parts.length > 1 then some (parts.getLastD "", "")
    else roleScanAndToken h
  else roleScanAndToken h

/-- Request metadata and gateway identification part of extractCallerInfo
(main.go lines 124-159). -/
def callerBase (h : Headers) : CallerInfo :=
  let c0 : CallerInfo := {}
  let c1 := if headerGet h "X-Request-Id" ≠ "" then
      { c0 with principalID := "Request: " ++ headerGet h "X-Request-Id" } else c0
  let c2 := if headerGet h "X-Amzn-Trace-Id" ≠ "" ∧ c1.principalID = "" then
      { c1 with principalID := "Trace: " ++ headerGet h "X-Amzn-Trace-Id" } else c1
  let c3 := if headerGet h "X-Stage" ≠ "" then
      { c2 with accountID := "Stage: " ++ headerGet h "X-Stage" } else c2
  let host := headerGet h "Host"
  if host ≠ "" then
    if goContains host "7pxbysogui" then { c3 with userARN := "API A (Open Access)" }
    else if goContains host "cqst45pam7" then { c3 with userARN := "API B (Restricted Access)" }
    else if goContains host "vo9f4c6gj4" then { c3 with userARN := "API C (IAM + API Key)" }
    else if headerGet h "X-API-Key" ≠ "" then { c3 with userARN := "API C (IAM + API Key)" }
    else { c3 with userARN := "API Gateway: " ++ host }
  else c3

/-- The hard-coded restricted-role identifier (main.go lines 178-179). -/
def restrictedRole : String := "aws-lambda-rest-iam-api-api-b-restricted-role"

/-- Credential part of extractCallerInfo (main.go lines 161-191). -/
def callerAuth (awsRoleArn : String) (h : Headers) (c : CallerInfo) : Option CallerInfo :=
  let securityToken := headerGet h "X-Amz-Security-Token"
  if securityToken ≠ "" then
    match extractRoleInfo awsRoleArn h with
    | none => none
    | some (roleName, sessionName) =>
      let c5 :=
        if roleName ≠ "" then
          some { c with roleName := roleName, userID := "Role: " ++ roleName }
        else
          match goSliceTo securityToken (goMin securityToken.length 20) with
          | none => none
          | some piece => some { c with userID := "Token: " ++ piece ++ "..." }
      match c5 with
      | none => none
      | some c5v =>
        let c6 := if sessionName ≠ "" then { c5v with sessionName := sessionName } else c5v
        if goContains c6.userARN "API B" then
          some { c6 with roleName := restrictedRole, userID := "Role: " ++ restrictedRole }
        else some c6
  else
    let authHeader := headerGet h "Authorization"
    if authHeader ≠ "" then
      match goSliceTo authHeader (goMin authHeader.length 20) with
      | none => none
      | some piece => some { c with userID := "Auth: " ++ piece ++ "..." }
    else
      if c.userARN = "" then some { c with userARN := "Unauthenticated Request" }
      else some c

/-- extractCallerInfo (main.go lines 123-192). -/
def extractCallerInfo (awsRoleArn : String) (h : Headers) : Option CallerInfo :=
  callerAuth awsRoleArn h (callerBase h)

end Server

namespace Model

/-- The fixed sample payload of GET /data (both variants build the same map). -/
def sampleData : Json :=
  Json.obj [("items", Json.arr [Json.str "item1", Json.str "item2", Json.str "item3"]),
            ("count", Json.num 3)]

end Model

namespace Lambda

open Model

/-- The fields of events.APIGatewayProxyRequest read by the handler. -/
structure ProxyRequest where
  httpMethod : String
  path : String
  body : String

/-- HealthResponse of the gateway variant. -/
structure HealthResponse where
  status : String
  timestamp : String
  message : String

/-- DataResponse of the gateway variant; data is none when the Data field of
the Go struct is never assigned (a nil empty-interface value). -/
structure DataResponse where
  message : String
  data : Option Json
  method : String
  path : String

/-- The response value marshalled into the proxy-response body; empty is the
literal empty body of the OPTIONS short circuit. -/
inductive RespBody where
  | empty : RespBody
  | health (r : HealthResponse) : RespBody
  | data (r : DataResponse) : RespBody

/-- The Lambda handler switch (part_003 lines 33-147); now stands for the
formatted current time used by the health route. -/
def handler (decode : JsonDecoder) (now : String) (req : ProxyRequest) : Nat × RespBody :=
  if req.httpMethod = "OPTIONS" then (200, RespBody.empty)
  else if req.path = "/" then
    (200, RespBody.data
      ⟨"Welcome to AWS Lambda REST API with IAM Authentication", none, req.httpMethod, req.path⟩)
  else if req.path = "/health" then
    (200, RespBody.health ⟨"healthy", now, "API is running successfully"⟩)
  else if req.path = "/data" then
    if req.httpMethod = "GET" then
      (200, RespBody.data ⟨"Data retrieved successfully", some sampleData, req.httpMethod, req.path⟩)
    else if req.httpMethod = "POST" then
      if req.body ≠ "" then
        match decode req.body with
        | none =>
          (400, RespBody.data ⟨"Invalid JSON in request body", none, req.httpMethod, req.path⟩)
        | some m =>
          (201, RespBody.data
            ⟨"Data received successfully", some (marshalGoMap m), req.httpMethod, req.path⟩)
      else (400, RespBody.data ⟨"No data provided", none, req.httpMethod, req.path⟩)
    else
      (405, RespBody.data
        ⟨"Method " ++ req.httpMethod ++ " not allowed", none, req.httpMethod, req.path⟩)
  else (404, RespBody.data ⟨"Endpoint not found", none, req.httpMethod, req.path⟩)

/-- json.Marshal of the gateway-variant DataResponse as an ordered field list;
the data field carries omitempty and is dropped only for a nil interface. -/
def serializeData (r : DataResponse) : List (String × Json) :=
  ("message", Json.str r.message) ::
    ((match r.data with
      | none => []
      | some j => [("data", j)]) ++
     [("method", Json.str r.method), ("path", Json.str r.path)])

end Lambda

namespace Server

open Model

/-- The parts of an inbound http.Request used by the net/http handlers. -/
structure Request where
  method : String
  path : String
  headers : Headers
  body : String

/-- HealthResponse of the net/http variant (main.go lines 15-20). -/
structure HealthResponse where
  status : String
  timestamp : String
  message : String
  caller : Option CallerInfo

/-- DataResponse of the net/http variant (main.go lines 22-28). -/
structure DataResponse where
  message : String
  data : Option Json
  method : String
  path : String
  caller : Option CallerInfo

/-- Structured response value handed to writeJSONResponse. -/
inductive RespBody where
  | health (r : HealthResponse) : RespBody
  | data (r : DataResponse) : RespBody

/-- handleRoot (main.go lines 228-240). -/
def handleRoot (awsRoleArn : String) (req : Request) : Option (Nat × RespBody) :=
  match extractCallerInfo awsRoleArn req.headers with
  | none => none
  | some caller =>
    some (200, RespBody.data
      ⟨"Welcome to AWS Lambda REST API with IAM Authentication", none,
       req.method, req.path, some caller⟩)

/-- handleHealth (main.go lines 242-254). -/
def handleHealth (awsRoleArn now : String) (req : Request) : Option (Nat × RespBody) :=
  match extractCallerInfo awsRoleArn req.headers with
  | none => none
  | some caller =>
    some (200, RespBody.health ⟨"healthy", now, "API is running successfully", some caller⟩)

/-- handleData (main.go lines 256-305). -/
def handleData (decode : JsonDecoder) (awsRoleArn : String) (req : Request) :
    Option (Nat × RespBody) :=
  match extractCallerInfo awsRoleArn req.headers with
  | none => none
  | some caller =>
    if req.method = "GET" then
      some (200, RespBody.data
        ⟨"Data retrieved successfully", some sampleData, req.method, req.path, some caller⟩)
    else if req.method = "POST" then
      match decode req.body with
      | none =>
        some (400, RespBody.data
          ⟨"Invalid JSON in request body", none, req.method, req.path, some caller⟩)
      | some m =>
        some (201, RespBody.data
          ⟨"Data received successfully", some (marshalGoMap m), req.method, req.path, some caller⟩)
    else
      some (405, RespBody.data
        ⟨"Method " ++ req.method ++ " not allowed", none, req.method, req.path, some caller⟩)

/-- The ServeMux routing built in main (main.go lines 201-207): the exact
patterns "/health" and "/data", with "/" the catch-all for every other path. -/
def serveMux (decode : JsonDecoder) (awsRoleArn now : String) (req : Request) :
    Option (Nat × RespBody) :=
  if req.path = "/health" then handleHealth awsRoleArn now req
  else if req.path = "/data" then handleData decode awsRoleArn req
  else handleRoot awsRoleArn req

/-- json.Marshal of a CallerInfo, every field tagged omitempty
(main.go lines 30-37). -/
def serializeCaller (c : CallerInfo) : List (String × Json) :=
  (if c.userARN = "" then [] else [("user_arn", Json.str c.userARN)]) ++
  (if c.userID = "" then [] else [("user_id", Json.str c.userID)]) ++
  (if c.accountID = "" then [] else [("account_id", Json.str c.accountID)]) ++
  (if c.principalID = "" then [] else [("principal_id", Json.str c.principalID)]) ++
  (if c.roleName = "" then [] else [("role_name", Json.str c.roleName)]) ++
  (if c.sessionName = "" then [] else [("session_name", Json.str c.sessionName)])

/-- json.Marshal of the net/http DataResponse as an ordered field list; data
and caller carry omitempty and are dropped only for nil interface or pointer. -/
def serializeData (r : DataResponse) : List (String × Json) :=
  ("message", Json.str r.message) ::
    ((match r.data with
      | none => []
      | some j => [("data", j)]) ++
     [("method", Json.str r.method), ("path", Json.str r.path)] ++
     (match r.caller with
      | none => []
      | some c => [("caller", Json.obj (serializeCaller c))]))

end Server

namespace Model

/-- A concrete decoder for witnesses, modelling json.Unmarshal into a Go map
on the specific body literals used: the literal null decodes to the nil map,
the empty object decodes to the empty map, and everything else is rejected. -/
def sampleDecoder : JsonDecoder := fun s =>
  if s = "null" then some none
  else if s = "\x7b\x7d" then some (some [])
  else none

/-- A Host value carrying both known gateway id fragments; the open-access
fragment is matched first by extractCallerInfo. -/
def bothFragmentsHost : String := "7pxbysogui.cqst45pam7.execute-api.eu-west-2.amazonaws.com"

/-- Header set for the restricted-gateway scenario with a Host that also
contains the open-access fragment. -/
def c2Headers : Headers := [("Host", bothFragmentsHost), ("X-Amz-Security-Token", "abc")]

/-- The Authorization value of the spec scenario for header-based user ids. -/
def authVal : String := "Bearer sometoken1234567890"

end Model

namespace Model

theorem headerGet_nil (k : String) : headerGet [] k = "" := rfl

theorem goMin_le_left (a b : Nat) : goMin a b ≤ a := by
  unfold goMin; split <;> omega

theorem goMin_le_right (a b : Nat) : goMin a b ≤ b := by
  unfold goMin; split <;> omega

theorem subIndex_bound (pat : List Char) :
    ∀ (l : List Char) (i : Nat), subIndex pat l = some i → i + pat.length ≤ l.length := by
  intro l
  induction l with
  | nil =>
    intro i h
    unfold subIndex at h
    by_cases hp : pat.isEmpty
    · have hpat : pat = [] := List.isEmpty_iff.mp hp
      rw [if_pos hp] at h
      have h0 : (0 : Nat) = i := Option.some.inj h
      subst h0
      simp [hpat]
    · rw [if_neg hp] at h
      simp at h
  | cons c rest ih =>
    intro i h
    unfold subIndex at h
    by_cases hp : pat.isPrefixOf (c :: rest)
    · rw [if_pos hp] at h
      have h0 : (0 : Nat) = i := Option.some.inj h
      subst h0
      have hpre : pat <+: (c :: rest) := List.isPrefixOf_iff_prefix.mp hp
      have := hpre.length_le
      simp only [List.length_cons] at this ⊢
      omega
    · rw [if_neg hp] at h
      cases hsub : subIndex pat rest with
      | none => rw [hsub] at h; simp at h
      | some j =>
        rw [hsub] at h
        simp only [Option.map_some'] at h
        have hji : j + 1 = i := Option.some.inj h
        have := ih j hsub
        simp only [List.length_cons]
        omega

theorem anyIndex_bound (chars : List Char) :
    ∀ (l : List Char) (i : Nat), anyIndex chars l = some i → i < l.length := by
  intro l
  induction l with
  | nil => intro i h; simp [anyIndex] at h
  | cons c rest ih =>
    intro i h
    unfold anyIndex at h
    by_cases hc : chars.contains c
    · rw [if_pos hc] at h
      have h0 : (0 : Nat) = i := Option.some.inj h
      subst h0
      simp
    · rw [if_neg hc] at h
      cases hsub : anyIndex chars rest with
      | none => rw [hsub] at h; simp at h
      | some j =>
        rw [hsub] at h
        simp only [Option.map_some'] at h
        have hji : j + 1 = i := Option.some.inj h
        have := ih j hsub
        simp only [List.length_cons]
        omega

theorem goSlice_eq (s : String) (i j : Nat) (h1 : i ≤ j) (h2 : j ≤ s.data.length) :
    goSlice s i j = some (String.mk ((s.data.drop i).take (j - i))) := by
  unfold goSlice
  rw [if_pos (And.intro h1 h2)]

theorem goSliceTo_eq (s : String) (j : Nat) (h : j ≤ s.length) :
    goSliceTo s j = some (String.mk (s.data.take j)) := by
  unfold goSliceTo
  rw [goSlice_eq s 0 j (Nat.zero_le j) h]
  simp

theorem goSliceFrom_eq (s : String) (i : Nat) (h : i ≤ s.data.length) :
    goSliceFrom s i = some (String.mk (s.data.drop i)) := by
  unfold goSliceFrom
  rw [goSlice_eq s i s.data.length h (Nat.le_refl _)]
  congr 1
  apply congrArg
  apply List.take_of_length_le
  simp

theorem goSliceTo_isSome (s : String) (j : Nat) (h : j ≤ s.length) :
    (goSliceTo s j).isSome := by
  rw [goSliceTo_eq s j h]; rfl

theorem subIndex_append_isSome (pat b : List Char) :
    ∀ a : List Char, (subIndex pat (a ++ (pat ++ b))).isSome := by
  intro a
  induction a with
  | nil =>
    simp only [List.nil_append]
    unfold subIndex
    match hm : pat ++ b with
    | [] =>
      have hpat : pat = [] := by
        cases List.append_eq_nil.mp hm with
        | intro h1 h2 => exact h1
      simp [hpat]
    | c :: rest =>
      have hpre : pat.isPrefixOf (c :: rest) := by
        rw [List.isPrefixOf_iff_prefix, ← hm]
        exact List.prefix_append pat b
      simp [hpre]
  | cons c a ih =>
    simp only [List.cons_append]
    unfold subIndex
    by_cases hp : pat.isPrefixOf (c :: (a ++ (pat ++ b)))
    · rw [if_pos hp]
      rfl
    · rw [if_neg hp]
      cases hsub : subIndex pat (a ++ (pat ++ b)) with
      | none => rw [hsub] at ih; simp at ih
      | some j => rfl

theorem goContains_middle (a m b : String) : goContains (a ++ m ++ b) m = true := by
  unfold goContains goIndex
  have hdata : (a ++ m ++ b).data = a.data ++ (m.data ++ b.data) := by
    simp [String.data_append]
  rw [hdata]
  exact subIndex_append_isSome m.data b.data a.data

end Model

namespace Server

open Model

theorem isSome_ite_some {α : Type} (P : Prop) [Decidable P] (a b : α) :
    (if P then some a else some b).isSome := by
  by_cases h : P
  · rw [if_pos h]; rfl
  · rw [if_neg h]; rfl

theorem roleSlashCheck_isSome (value : String) : (roleSlashCheck value).isSome := by
  unfold roleSlashCheck
  by_cases hc : goContains value "role/"
  · rw [if_pos hc]
    cases hidx : goIndex value "role/" with
    | none => rfl
    | some idx =>
      dsimp only
      have hb := subIndex_bound ("role/".data) value.data idx hidx
      have hle : idx + 5 ≤ value.data.length := by
        have h5 : ("role/".data).length = 5 := rfl
        omega
      rw [goSliceFrom_eq value (idx + 5) hle]
      dsimp only
      cases hany : goIndexAny (String.mk (value.data.drop (idx + 5))) "/,; " with
      | none => rfl
      | some endIdx =>
        dsimp only
        have hlt := anyIndex_bound ("/,; ".data)
          (String.mk (value.data.drop (idx + 5))).data endIdx hany
        rw [goSliceTo_eq (String.mk (value.data.drop (idx + 5))) endIdx (Nat.le_of_lt hlt)]
        rfl
  · rw [if_neg hc]
    rfl

theorem roleValueCheck_isSome (value : String) : (roleValueCheck value).isSome := by
  unfold roleValueCheck
  rw [goSliceTo_eq value (goMin value.length 100) (goMin_le_left _ _)]
  dsimp only
  by_cases ha : goContains value "assumed-role"
  · rw [if_pos ha]
    cases assumedRoleScan (value.splitOn "/") with
    | none => exact roleSlashCheck_isSome value
    | some rs => rfl
  · rw [if_neg ha]
    exact roleSlashCheck_isSome value

theorem roleHeaderLoop_isSome (h : Headers) :
    ∀ names : List String, (roleHeaderLoop h names).isSome := by
  intro names
  induction names with
  | nil => rfl
  | cons name rest ih =>
    unfold roleHeaderLoop
    dsimp only
    by_cases hg : headerGet h name ≠ "" ∧ (headerGet h name).length > 10
    · rw [if_pos hg]
      cases hv : roleValueCheck (headerGet h name) with
      | none =>
        have := roleValueCheck_isSome (headerGet h name)
        rw [hv] at this
        simp at this
      | some o =>
        cases o with
        | none => exact ih
        | some rs => rfl
    · rw [if_neg hg]
      exact ih

theorem stsTokenCheck_isSome (h : Headers) : (stsTokenCheck h).isSome := by
  unfold stsTokenCheck
  dsimp only
  by_cases hg : headerGet h "X-Amz-Security-Token" ≠ "" ∧
      "IQoJ".isPrefixOf (headerGet h "X-Amz-Security-Token")
  · rw [if_pos hg]
    by_cases hl : (headerGet h "X-Amz-Security-Token").length > 100
    · rw [if_pos hl]
      have hlen : (headerGet h "X-Amz-Security-Token").data.length > 100 := hl
      rw [goSlice_eq (headerGet h "X-Amz-Security-Token") 50 60 (by omega) (by omega)]
      rfl
    · rw [if_neg hl]
      rfl
  · rw [if_neg hg]
    rfl

theorem roleScanAndToken_isSome (h : Headers) : (roleScanAndToken h).isSome := by
  unfold roleScanAndToken
  cases hl : roleHeaderLoop h roleHeaders with
  | none =>
    have := roleHeaderLoop_isSome h roleHeaders
    rw [hl] at this
    simp at this
  | some o =>
    cases o with
    | none => exact stsTokenCheck_isSome h
    | some rs => rfl

theorem extractRoleInfo_isSome (awsRoleArn : String) (h : Headers) :
    (extractRoleInfo awsRoleArn h).isSome := by
  unfold extractRoleInfo
  by_cases hc : awsRoleArn ≠ "" ∧ goContains awsRoleArn "role/"
  · rw [if_pos hc]
    dsimp only
    by_cases hp : (awsRoleArn.splitOn "/").length > 1
    · rw [if_pos hp]
      rfl
    · rw [if_neg hp]
      exact roleScanAndToken_isSome h
  · rw [if_neg hc]
    exact roleScanAndToken_isSome h

theorem callerAuth_isSome (awsRoleArn : String) (h : Headers) (c : CallerInfo) :
    (callerAuth awsRoleArn h c).isSome := by
  unfold callerAuth
  dsimp only
  by_cases ht : headerGet h "X-Amz-Security-Token" ≠ ""
  · rw [if_pos ht]
    cases hr : extractRoleInfo awsRoleArn h with
    | none =>
      have := extractRoleInfo_isSome awsRoleArn h
      rw [hr] at this
      simp at this
    | some rs =>
      obtain ⟨roleName, sessionName⟩ := rs
      dsimp only
      by_cases hrn : roleName ≠ ""
      · rw [if_pos hrn]
        dsimp only
        by_cases hs : sessionName ≠ ""
        · rw [if_pos hs]
          exact isSome_ite_some _ _ _
        · rw [if_neg hs]
          exact isSome_ite_some _ _ _
      · rw [if_neg hrn]
        rw [goSliceTo_eq _ _ (goMin_le_left _ _)]
        dsimp only
        by_cases hs : sessionName ≠ ""
        · rw [if_pos hs]
          exact isSome_ite_some _ _ _
        · rw [if_neg hs]
          exact isSome_ite_some _ _ _
  · rw [if_neg ht]
    by_cases ha : headerGet h "Authorization" ≠ ""
    · rw [if_pos ha]
      rw [goSliceTo_eq _ _ (goMin_le_left _ _)]
      rfl
    · rw [if_neg ha]
      exact isSome_ite_some _ _ _

theorem extractCallerInfo_isSome (awsRoleArn : String) (h : Headers) :
    (extractCallerInfo awsRoleArn h).isSome :=
  callerAuth_isSome awsRoleArn h (callerBase h)

end Server

namespace Server

open Model

theorem callerBase_apiB (h : Headers)
    (h1 : goContains (headerGet h "Host") "cqst45pam7" = true)
    (h2 : goContains (headerGet h "Host") "7pxbysogui" = false) :
    (callerBase h).userARN = "API B (Restricted Access)" := by
  have hhost : headerGet h "Host" ≠ "" := by
    intro he
    rw [he] at h1
    exact absurd h1 (by decide)
  unfold callerBase
  dsimp only
  rw [if_pos hhost]
  rw [if_neg (by rw [h2]; exact Bool.false_ne_true)]
  rw [if_pos h1]

theorem callerAuth_apiB (awsRoleArn : String) (h : Headers) (c : CallerInfo)
    (hc : goContains c.userARN "API B" = true)
    (ht : headerGet h "X-Amz-Security-Token" ≠ "") :
    ∃ out, callerAuth awsRoleArn h c = some out ∧
      out.userARN = c.userARN ∧
      out.roleName = restrictedRole ∧
      out.userID = "Role: " ++ restrictedRole := by
  unfold callerAuth
  dsimp only
  rw [if_pos ht]
  cases hr : extractRoleInfo awsRoleArn h with
  | none =>
    have := extractRoleInfo_isSome awsRoleArn h
    rw [hr] at this
    simp at this
  | some rs =>
    obtain ⟨roleName, sessionName⟩ := rs
    dsimp only
    by_cases hrn : roleName ≠ ""
    · rw [if_pos hrn]
      dsimp only
      by_cases hs : sessionName ≠ ""
      · rw [if_pos hs]
        rw [if_pos hc]
        exact ⟨_, rfl, rfl, rfl, rfl⟩
      · rw [if_neg hs]
        rw [if_pos hc]
        exact ⟨_, rfl, rfl, rfl, rfl⟩
    · rw [if_neg hrn]
      rw [goSliceTo_eq _ _ (goMin_le_left _ _)]
      dsimp only
      by_cases hs : sessionName ≠ ""
      · rw [if_pos hs]
        rw [if_pos hc]
        exact ⟨_, rfl, rfl, rfl, rfl⟩
      · rw [if_neg hs]
        rw [if_pos hc]
        exact ⟨_, rfl, rfl, rfl, rfl⟩

theorem callerAuth_auth (awsRoleArn : String) (h : Headers) (c : CallerInfo)
    (ht : headerGet h "X-Amz-Security-Token" = "")
    (ha : headerGet h "Authorization" ≠ "") :
    callerAuth awsRoleArn h c =
      some { c with
             userID := "Auth: " ++
                 String.mk ((headerGet h "Authorization").data.take
                   (goMin (headerGet h "Authorization").length 20)) ++ "..." } := by
  unfold callerAuth
  dsimp only
  rw [if_neg (by simp [ht])]
  rw [if_pos ha]
  rw [goSliceTo_eq _ _ (goMin_le_left _ _)]

end Server

/-- C1: for every request body that decodes to a JSON object B, dispatching
POST /data returns status 201 and the data field of the response deep-equals
B, in both the gateway variant and the net/http variant. -/
theorem c1_post_object_201 (decode : Model.JsonDecoder) (awsRoleArn now : String)
    (h : Model.Headers) (body : String) (B : List (String × Model.Json))
    (hne : body ≠ "") (hdec : decode body = some (some B)) :
    Lambda.handler decode now ⟨"POST", "/data", body⟩ =
      (201, Lambda.RespBody.data
        ⟨"Data received successfully", some (Model.Json.obj B), "POST", "/data"⟩) ∧
    (∃ c, Server.serveMux decode awsRoleArn now ⟨"POST", "/data", h, body⟩ =
      some (201, Server.RespBody.data
        ⟨"Data received successfully", some (Model.Json.obj B), "POST", "/data", some c⟩)) := by
  constructor
  · unfold Lambda.handler
    dsimp only
    rw [if_neg (by decide), if_neg (by decide), if_neg (by decide), if_pos rfl,
        if_neg (by decide), if_pos rfl, if_pos hne, hdec]
    rfl
  · obtain ⟨c, hc⟩ :=
      Option.isSome_iff_exists.mp (Server.extractCallerInfo_isSome awsRoleArn h)
    refine ⟨c, ?_⟩
    unfold Server.serveMux Server.handleData
    dsimp only
    rw [if_neg (by decide), if_pos rfl, hc]
    dsimp only
    rw [if_neg (by decide), if_pos rfl, hdec]
    rfl

/-- Witness for c1_post_object_201: the empty JSON object body. -/
theorem c1_post_object_201_witness :
    Lambda.handler Model.sampleDecoder "t" ⟨"POST", "/data", "\x7b\x7d"⟩ =
      (201, Lambda.RespBody.data
        ⟨"Data received successfully", some (Model.Json.obj []), "POST", "/data"⟩) ∧
    (∃ c, Server.serveMux Model.sampleDecoder "" "t" ⟨"POST", "/data", [], "\x7b\x7d"⟩ =
      some (201, Server.RespBody.data
        ⟨"Data received successfully", some (Model.Json.obj []), "POST", "/data", some c⟩)) :=
  c1_post_object_201 Model.sampleDecoder "" "t" [] "\x7b\x7d" [] (by decide) rfl

/-- C2 counterexample: the header set with Host containing the restricted
fragment cqst45pam7 but also the open fragment 7pxbysogui, together with
security token "abc", yields userArn "API A (Open Access)" (not containing
"API B") and an empty role name instead of the restricted-role constant. -/
theorem c2_counterexample :
    (Server.extractCallerInfo "" Model.c2Headers).map
        (fun c => (c.userARN, c.roleName)) = some ("API A (Open Access)", "") ∧
    Model.goContains "API A (Open Access)" "API B" = false ∧
    Server.restrictedRole ≠ "" :=
  ⟨rfl, by decide, by decide⟩

/-- C2 amended: whenever the Host header contains the restricted fragment
cqst45pam7 and does not contain the open fragment 7pxbysogui, and a security
token header is present, the inferred caller has userArn containing "API B"
and role name and user id forced to the restricted-role constant, overriding
any role name parsed from headers or token. -/
theorem c2_restricted_override (awsRoleArn : String) (h : Model.Headers)
    (h1 : Model.goContains (Model.headerGet h "Host") "cqst45pam7" = true)
    (h2 : Model.goContains (Model.headerGet h "Host") "7pxbysogui" = false)
    (ht : Model.headerGet h "X-Amz-Security-Token" ≠ "") :
    ∃ c, Server.extractCallerInfo awsRoleArn h = some c ∧
      Model.goContains c.userARN "API B" = true ∧
      c.roleName = Server.restrictedRole ∧
      c.userID = "Role: " ++ Server.restrictedRole := by
  have hbase := Server.callerBase_apiB h h1 h2
  have hcontains : Model.goContains (Server.callerBase h).userARN "API B" = true := by
    rw [hbase]; decide
  obtain ⟨out, hout, harn, hrole, hid⟩ :=
    Server.callerAuth_apiB awsRoleArn h (Server.callerBase h) hcontains ht
  exact ⟨out, hout, by rw [harn, hbase]; decide, hrole, hid⟩

/-- Witness for c2_restricted_override at a concrete restricted-gateway host. -/
theorem c2_restricted_override_witness :
    ∃ c, Server.extractCallerInfo ""
        [("Host", "cqst45pam7.execute-api.eu-west-2.amazonaws.com"),
         ("X-Amz-Security-Token", "abc")] = some c ∧
      Model.goContains c.userARN "API B" = true ∧
      c.roleName = Server.restrictedRole ∧
      c.userID = "Role: " ++ Server.restrictedRole :=
  c2_restricted_override ""
    [("Host", "cqst45pam7.execute-api.eu-west-2.amazonaws.com"),
     ("X-Amz-Security-Token", "abc")]
    (by decide) (by decide) (by decide)

/-- C3: the caller-identity inferencer is total: for every header set and
every value of the execution-role environment variable, extractRoleInfo and
extractCallerInfo return a result; no slice expression goes out of bounds. -/
theorem c3_inferencer_total (awsRoleArn : String) (h : Model.Headers) :
    (∃ rs, Server.extractRoleInfo awsRoleArn h = some rs) ∧
    (∃ c, Server.extractCallerInfo awsRoleArn h = some c) :=
  ⟨Option.isSome_iff_exists.mp (Server.extractRoleInfo_isSome awsRoleArn h),
   Option.isSome_iff_exists.mp (Server.extractCallerInfo_isSome awsRoleArn h)⟩

/-- C4 counterexample: in the gateway variant, the empty body on POST /data
returns 400 but with message "No data provided", which does not contain the
text "Invalid JSON". -/
theorem c4_counterexample :
    Lambda.handler Model.sampleDecoder "t" ⟨"POST", "/data", ""⟩ =
      (400, Lambda.RespBody.data ⟨"No data provided", none, "POST", "/data"⟩) ∧
    Model.goContains "No data provided" "Invalid JSON" = false :=
  ⟨rfl, by decide⟩

/-- C4 amended: a body that does not decode returns 400 on POST /data in both
variants; the message contains "Invalid JSON" except in the gateway variant
for the empty body, where it is "No data provided" (still status 400). -/
theorem c4_invalid_json_400 (decode : Model.JsonDecoder) (awsRoleArn now : String)
    (h : Model.Headers) (body : String) (hdec : decode body = none) :
    (body ≠ "" →
      Lambda.handler decode now ⟨"POST", "/data", body⟩ =
        (400, Lambda.RespBody.data
          ⟨"Invalid JSON in request body", none, "POST", "/data"⟩)) ∧
    Lambda.handler decode now ⟨"POST", "/data", ""⟩ =
      (400, Lambda.RespBody.data ⟨"No data provided", none, "POST", "/data"⟩) ∧
    Model.goContains "Invalid JSON in request body" "Invalid JSON" = true ∧
    (∃ c, Server.serveMux decode awsRoleArn now ⟨"POST", "/data", h, body⟩ =
      some (400, Server.RespBody.data
        ⟨"Invalid JSON in request body", none, "POST", "/data", some c⟩)) := by
  refine ⟨?_, ?_, by decide, ?_⟩
  · intro hne
    unfold Lambda.handler
    dsimp only
    rw [if_neg (by decide), if_neg (by decide), if_neg (by decide), if_pos rfl,
        if_neg (by decide), if_pos rfl, if_pos hne, hdec]
  · unfold Lambda.handler
    dsimp only
    rw [if_neg (by decide), if_neg (by decide), if_neg (by decide), if_pos rfl,
        if_neg (by decide), if_pos rfl, if_neg (by decide)]
  · obtain ⟨c, hc⟩ :=
      Option.isSome_iff_exists.mp (Server.extractCallerInfo_isSome awsRoleArn h)
    refine ⟨c, ?_⟩
    unfold Server.serveMux Server.handleData
    dsimp only
    rw [if_neg (by decide), if_pos rfl, hc]
    dsimp only
    rw [if_neg (by decide), if_pos rfl, hdec]

/-- Witness for c4_invalid_json_400 at the non-JSON body "x". -/
theorem c4_invalid_json_400_witness :
    ("x" ≠ "" →
      Lambda.handler Model.sampleDecoder "t" ⟨"POST", "/data", "x"⟩ =
        (400, Lambda.RespBody.data
          ⟨"Invalid JSON in request body", none, "POST", "/data"⟩)) ∧
    Lambda.handler Model.sampleDecoder "t" ⟨"POST", "/data", ""⟩ =
      (400, Lambda.RespBody.data ⟨"No data provided", none, "POST", "/data"⟩) ∧
    Model.goContains "Invalid JSON in request body" "Invalid JSON" = true ∧
    (∃ c, Server.serveMux Model.sampleDecoder "" "t" ⟨"POST", "/data", [], "x"⟩ =
      some (400, Server.RespBody.data
        ⟨"Invalid JSON in request body", none, "POST", "/data", some c⟩)) :=
  c4_invalid_json_400 Model.sampleDecoder "" "t" [] "x" rfl

/-- C5: with the empty header set the inferred caller has userArn equal to
"Unauthenticated Request" and every other field equal to the empty string,
for any value of the execution-role environment variable. -/
theorem c5_empty_headers_unauthenticated (awsRoleArn : String) :
    Server.extractCallerInfo awsRoleArn [] =
      some ⟨"Unauthenticated Request", "", "", "", "", ""⟩ := rfl

/-- C6: a method other than GET and POST on /data returns 405 with the
method name contained in the message; in the gateway variant the same holds
for methods additionally different from OPTIONS. -/
theorem c6_method_not_allowed (decode : Model.JsonDecoder) (awsRoleArn now : String)
    (h : Model.Headers) (body M : String)
    (hg : M ≠ "GET") (hp : M ≠ "POST") :
    (∃ c, Server.serveMux decode awsRoleArn now ⟨M, "/data", h, body⟩ =
      some (405, Server.RespBody.data
        ⟨"Method " ++ M ++ " not allowed", none, M, "/data", some c⟩) ∧
      Model.goContains ("Method " ++ M ++ " not allowed") M = true) ∧
    (M ≠ "OPTIONS" →
      Lambda.handler decode now ⟨M, "/data", body⟩ =
        (405, Lambda.RespBody.data ⟨"Method " ++ M ++ " not allowed", none, M, "/data"⟩) ∧
      Model.goContains ("Method " ++ M ++ " not allowed") M = true) := by
  have hcont := Model.goContains_middle "Method " M " not allowed"
  constructor
  · obtain ⟨c, hc⟩ :=
      Option.isSome_iff_exists.mp (Server.extractCallerInfo_isSome awsRoleArn h)
    refine ⟨c, ?_, hcont⟩
    unfold Server.serveMux Server.handleData
    dsimp only
    rw [if_neg (by decide), if_pos rfl, hc]
    dsimp only
    rw [if_neg hg, if_neg hp]
  · intro hm
    refine ⟨?_, hcont⟩
    unfold Lambda.handler
    dsimp only
    rw [if_neg hm, if_neg (by decide), if_neg (by decide), if_pos rfl,
        if_neg hg, if_neg hp]

/-- Witness for c6_method_not_allowed at method DELETE. -/
theorem c6_method_not_allowed_witness :
    (∃ c, Server.serveMux Model.sampleDecoder "" "t" ⟨"DELETE", "/data", [], ""⟩ =
      some (405, Server.RespBody.data
        ⟨"Method " ++ "DELETE" ++ " not allowed", none, "DELETE", "/data", some c⟩) ∧
      Model.goContains ("Method " ++ "DELETE" ++ " not allowed") "DELETE" = true) ∧
    ("DELETE" ≠ "OPTIONS" →
      Lambda.handler Model.sampleDecoder "t" ⟨"DELETE", "/data", ""⟩ =
        (405, Lambda.RespBody.data
          ⟨"Method " ++ "DELETE" ++ " not allowed", none, "DELETE", "/data"⟩) ∧
      Model.goContains ("Method " ++ "DELETE" ++ " not allowed") "DELETE" = true) :=
  c6_method_not_allowed Model.sampleDecoder "" "t" [] "" "DELETE"
    (by decide) (by decide)

/-- C7 counterexample: in the gateway variant an OPTIONS request on an
unmatched path is short-circuited to status 200 with an empty body, not 404. -/
theorem c7_counterexample :
    Lambda.handler Model.sampleDecoder "t" ⟨"OPTIONS", "/missing", ""⟩ =
      (200, Lambda.RespBody.empty) ∧ (200 : Nat) ≠ 404 :=
  ⟨rfl, by decide⟩

/-- C7 amended: in the gateway-variant dispatcher, every method other than
OPTIONS on a path different from "/", "/health" and "/data" returns 404 with
message "Endpoint not found". -/
theorem c7_unmatched_404 (decode : Model.JsonDecoder) (now M p body : String)
    (hm : M ≠ "OPTIONS") (h1 : p ≠ "/") (h2 : p ≠ "/health") (h3 : p ≠ "/data") :
    Lambda.handler decode now ⟨M, p, body⟩ =
      (404, Lambda.RespBody.data ⟨"Endpoint not found", none, M, p⟩) := by
  unfold Lambda.handler
  dsimp only
  rw [if_neg hm, if_neg h1, if_neg h2, if_neg h3]

/-- Witness for c7_unmatched_404 at GET /missing. -/
theorem c7_unmatched_404_witness :
    Lambda.handler Model.sampleDecoder "t" ⟨"GET", "/missing", ""⟩ =
      (404, Lambda.RespBody.data ⟨"Endpoint not found", none, "GET", "/missing"⟩) :=
  c7_unmatched_404 Model.sampleDecoder "t" "GET" "/missing" ""
    (by decide) (by decide) (by decide) (by decide)

/-- C9: in the net/http variant the "/" route is a catch-all: every request
whose path is neither "/health" nor "/data" is handled by the root handler
and returns 200 with the welcome message echoing method and path. -/
theorem c9_root_catch_all (decode : Model.JsonDecoder) (awsRoleArn now : String)
    (h : Model.Headers) (M p body : String)
    (h1 : p ≠ "/health") (h2 : p ≠ "/data") :
    ∃ c, Server.serveMux decode awsRoleArn now ⟨M, p, h, body⟩ =
      some (200, Server.RespBody.data
        ⟨"Welcome to AWS Lambda REST API with IAM Authentication", none, M, p, some c⟩) := by
  obtain ⟨c, hc⟩ :=
    Option.isSome_iff_exists.mp (Server.extractCallerInfo_isSome awsRoleArn h)
  refine ⟨c, ?_⟩
  unfold Server.serveMux Server.handleRoot
  dsimp only
  rw [if_neg h1, if_neg h2, hc]

/-- Witness for c9_root_catch_all at GET /nonexistent. -/
theorem c9_root_catch_all_witness :
    ∃ c, Server.serveMux Model.sampleDecoder "" "t" ⟨"GET", "/nonexistent", [], ""⟩ =
      some (200, Server.RespBody.data
        ⟨"Welcome to AWS Lambda REST API with IAM Authentication", none,
         "GET", "/nonexistent", some c⟩) :=
  c9_root_catch_all Model.sampleDecoder "" "t" [] "GET" "/nonexistent" ""
    (by decide) (by decide)

/-- C10 counterexample: POST /data with body the JSON literal null returns
201, but the serialized response does contain a data field, equal to JSON
null; the nil map held in the non-nil interface is not dropped by omitempty. -/
theorem c10_counterexample :
    (Lambda.handler Model.sampleDecoder "t" ⟨"POST", "/data", "null"⟩).2 =
      Lambda.RespBody.data
        ⟨"Data received successfully", some Model.Json.null, "POST", "/data"⟩ ∧
    ("data", Model.Json.null) ∈ Lambda.serializeData
        ⟨"Data received successfully", some Model.Json.null, "POST", "/data"⟩ := by
  refine ⟨rfl, ?_⟩
  simp [Lambda.serializeData]

/-- C10 amended: POST /data with body the JSON literal null returns 201 with
message "Data received successfully"; the decoded nil map marshals to JSON
null and the serialized response contains a data field equal to JSON null. -/
theorem c10_null_body_201 (decode : Model.JsonDecoder) (awsRoleArn now : String)
    (h : Model.Headers) (hdec : decode "null" = some none) :
    Lambda.handler decode now ⟨"POST", "/data", "null"⟩ =
      (201, Lambda.RespBody.data
        ⟨"Data received successfully", some Model.Json.null, "POST", "/data"⟩) ∧
    Lambda.serializeData
        ⟨"Data received successfully", some Model.Json.null, "POST", "/data"⟩ =
      [("message", Model.Json.str "Data received successfully"),
       ("data", Model.Json.null),
       ("method", Model.Json.str "POST"), ("path", Model.Json.str "/data")] ∧
    (∃ c, Server.serveMux decode awsRoleArn now ⟨"POST", "/data", h, "null"⟩ =
      some (201, Server.RespBody.data
        ⟨"Data received successfully", some Model.Json.null, "POST", "/data", some c⟩)) := by
  refine ⟨?_, rfl, ?_⟩
  · unfold Lambda.handler
    dsimp only
    rw [if_neg (by decide), if_neg (by decide), if_neg (by decide), if_pos rfl,
        if_neg (by decide), if_pos rfl, if_pos (by decide), hdec]
    rfl
  · obtain ⟨c, hc⟩ :=
      Option.isSome_iff_exists.mp (Server.extractCallerInfo_isSome awsRoleArn h)
    refine ⟨c, ?_⟩
    unfold Server.serveMux Server.handleData
    dsimp only
    rw [if_neg (by decide), if_pos rfl, hc]
    dsimp only
    rw [if_neg (by decide), if_pos rfl, hdec]
    rfl

/-- Witness for c10_null_body_201 with the sample decoder. -/
theorem c10_null_body_201_witness :
    Lambda.handler Model.sampleDecoder "t" ⟨"POST", "/data", "null"⟩ =
      (201, Lambda.RespBody.data
        ⟨"Data received successfully", some Model.Json.null, "POST", "/data"⟩) ∧
    Lambda.serializeData
        ⟨"Data received successfully", some Model.Json.null, "POST", "/data"⟩ =
      [("message", Model.Json.str "Data received successfully"),
       ("data", Model.Json.null),
       ("method", Model.Json.str "POST"), ("path", Model.Json.str "/data")] ∧
    (∃ c, Server.serveMux Model.sampleDecoder "" "t" ⟨"POST", "/data", [], "null"⟩ =
      some (201, Server.RespBody.data
        ⟨"Data received successfully", some Model.Json.null, "POST", "/data", some c⟩)) :=
  c10_null_body_201 Model.sampleDecoder "" "t" [] rfl

/-- C8 counterexample: with Authorization "Bearer sometoken1234567890" and no
security token, the inferred userId is "Auth: Bearer sometoken1234...": it is
not of the form (prefix of the header value of length at most 20) followed by
the ellipsis marker, since any such decomposition forces a 26-character
prefix. -/
theorem c8_counterexample :
    ¬ ∃ p : String, p.data <+: Model.authVal.data ∧ p.length ≤ 20 ∧
        (Server.extractCallerInfo "" [("Authorization", Model.authVal)]).map
          Server.CallerInfo.userID = some (p ++ "...") := by
  rintro ⟨p, -, hlen, heq⟩
  have hval : (Server.extractCallerInfo "" [("Authorization", Model.authVal)]).map
      Server.CallerInfo.userID = some "Auth: Bearer sometoken1234..." := rfl
  rw [hval] at heq
  have hstr : "Auth: Bearer sometoken1234..." = p ++ "..." := Option.some.inj heq
  have hlen2 := congrArg String.length hstr
  rw [String.length_append] at hlen2
  have hleft : ("Auth: Bearer sometoken1234...").length = 29 := rfl
  have hdots : ("...").length = 3 := rfl
  rw [hleft, hdots] at hlen2
  omega

/-- C8 amended: with an Authorization header present and no security token,
the inferred userId is the literal "Auth: " followed by a prefix of the
Authorization header value no longer than 20 characters, followed by the
ellipsis marker. -/
theorem c8_auth_userid (awsRoleArn : String) (h : Model.Headers)
    (ht : Model.headerGet h "X-Amz-Security-Token" = "")
    (ha : Model.headerGet h "Authorization" ≠ "") :
    ∃ c p, Server.extractCallerInfo awsRoleArn h = some c ∧
      p.data <+: (Model.headerGet h "Authorization").data ∧
      p.length ≤ 20 ∧
      c.userID = "Auth: " ++ p ++ "..." := by
  have heq := Server.callerAuth_auth awsRoleArn h (Server.callerBase h) ht ha
  refine ⟨_, String.mk ((Model.headerGet h "Authorization").data.take
      (Model.goMin (Model.headerGet h "Authorization").length 20)), heq, ?_, ?_, rfl⟩
  · exact List.take_prefix _ _
  · have e1 : (String.mk ((Model.headerGet h "Authorization").data.take
        (Model.goMin (Model.headerGet h "Authorization").length 20))).length =
        ((Model.headerGet h "Authorization").data.take
          (Model.goMin (Model.headerGet h "Authorization").length 20)).length := rfl
    have e2 := List.length_take
      (Model.goMin (Model.headerGet h "Authorization").length 20)
      (Model.headerGet h "Authorization").data
    have e3 := Model.goMin_le_right (Model.headerGet h "Authorization").length 20
    have e4 := Nat.min_le_left
      (Model.goMin (Model.headerGet h "Authorization").length 20)
      (Model.headerGet h "Authorization").data.length
    omega

/-- Witness for c8_auth_userid at the spec scenario Authorization value. -/
theorem c8_auth_userid_witness :
    ∃ c p, Server.extractCallerInfo "" [("Authorization", Model.authVal)] = some c ∧
      p.data <+: (Model.headerGet [("Authorization", Model.authVal)] "Authorization").data ∧
      p.length ≤ 20 ∧
      c.userID = "Auth: " ++ p ++ "..." :=
  c8_auth_userid "" [("Authorization", Model.authVal)] (by decide) (by decide)
